import Mathlib

/-
  Verification development for the inetpy TCP forwarding/echo service.

  The definitions below are a shallow embedding of the relevant parts of
  src/inetpy/forward_server.py, src/forward_server.py (the legacy variant)
  and src/inetpy/socket_pair.py.  Sockets are modelled by scripts of the
  events the operating system delivers (received chunks, accepted send
  sizes, errno failures); the Python control flow (loops, try/finally,
  exception propagation) is transcribed directly.  Machine-level byte
  values are plain Nat, byte sequences are List Nat.
-/

namespace Inetpy

/-- Linux errno value for an interrupted system call, errno.EINTR. -/
def EINTR : Int := 4

/-- Linux errno value for a broken pipe, errno.EPIPE. -/
def EPIPE : Int := 32

/-- Linux errno value for a connection reset by peer, errno.ECONNRESET. -/
def ECONNRESET : Int := 104

/-- Linux errno value for a socket that is not connected, errno.ENOTCONN. -/
def ENOTCONN : Int := 107

/-- Transcription of the class constant of the connection handler in
src/inetpy/forward_server.py: SOCK_RX_BUF_SIZE is 16 * 1024, the size of the
receive buffer rx_buf used by recv_into. -/
def SOCK_RX_BUF_SIZE : Nat := 16 * 1024

/-- One result of a call src_sock.recv_into(rx_buf): either a chunk of bytes
(the empty chunk meaning source EOF, nbytes = 0), or a socket.error carrying
an errno. -/
inductive RecvEv where
  | ok (chunk : List Nat)
  | err (errno : Int)
deriving DecidableEq

/-- One result of a low-level send attempt inside socket.sendall: the kernel
either accepts some positive number of bytes of the remaining data
(accept n stands for accepting min (n + 1) remaining bytes, so at least one
byte, as a blocking send never accepts zero), or the send fails with an
errno. -/
inductive SendStep where
  | accept (n : Nat)
  | err (errno : Int)
deriving DecidableEq

/-- True when this send step is a socket.error. -/
def SendStep.isErr : SendStep → Bool
  | SendStep.accept _ => false
  | SendStep.err _ => true

/-- Semantics of the CPython library call dest_sock.sendall(data), which the
pump relies on: loop low-level sends of the remaining bytes until everything
has been accepted or a send fails.  Returns the pieces the kernel accepted in
order, the unconsumed remainder of the send script, and the errno of the
socket.error when one was raised; none models a call that blocks forever
because the environment script ran out. -/
def sendall : List Nat → List SendStep → Option (List (List Nat) × List SendStep × Option Int)
  | [], script => some ([], script, none)
  | _ :: _, [] => none
  | _ :: _, SendStep.err e :: rest => some ([], rest, some e)
  | d :: ds, SendStep.accept n :: rest =>
    match sendall ((d :: ds).drop (min (n + 1) (d :: ds).length)) rest with
    | none => none
    | some (pieces, rest2, exc) =>
      some ((d :: ds).take (min (n + 1) (d :: ds).length) :: pieces, rest2, exc)

/-- How one run of the inner forward loop ended.  The first three
constructors are the break statements of the loop (orderly exits); fatal e
is the loop re-raising a socket.error with errno e. -/
inductive PumpStop where
  | srcEOF
  | srcReset
  | destClosed
  | fatal (errno : Int)
deriving DecidableEq

/-- Result of one run of the forward loop: how it stopped, plus the pieces
of bytes actually handed to the kernel on the destination socket, in order.
The written list is the observable trace of sends, not program state. -/
structure LoopResult where
  stop : PumpStop
  written : List (List Nat)
deriving DecidableEq

/-- Transcription of the while-loop body of forward(src_sock, dest_sock) in
handle of src/inetpy/forward_server.py: recv_into on the source
(EINTR means continue, ECONNRESET means break, any other errno re-raises),
break on a zero-length read, otherwise sendall the received bytes to the
destination (EPIPE means break, ECONNRESET means break, any other errno
re-raises).  The recv script rs supplies the successive recv_into results,
the send script ss supplies the kernel behaviour of the sends, acc
accumulates the pieces written so far; none models the loop blocking because
a script ran out. -/
def forwardLoop : List RecvEv → List SendStep → List (List Nat) → Option LoopResult
  | [], _, _ => none
  | RecvEv.err e :: rs, ss, acc =>
    if e = EINTR then forwardLoop rs ss acc
    else if e = ECONNRESET then some ⟨PumpStop.srcReset, acc⟩
    else some ⟨PumpStop.fatal e, acc⟩
  | RecvEv.ok c :: rs, ss, acc =>
    if c.isEmpty then some ⟨PumpStop.srcEOF, acc⟩
    else
      match sendall c ss with
      | none => none
      | some (pieces, ss2, exc) =>
        match exc with
        | none => forwardLoop rs ss2 (acc ++ pieces)
        | some e =>
          if e = EPIPE then some ⟨PumpStop.destClosed, acc ++ pieces⟩
          else if e = ECONNRESET then some ⟨PumpStop.destClosed, acc ++ pieces⟩
          else some ⟨PumpStop.fatal e, acc ++ pieces⟩

/-- Transcription of the while-loop body of forward(src_sock, dest_sock) in
handle of the legacy variant src/forward_server.py (lines 109 to 129): on a
recv_into failure only EINTR is handled (continue) and every other errno,
including ECONNRESET, re-raises; on a sendall failure only EPIPE is handled
(break) and every other errno, including ECONNRESET, re-raises. -/
def forwardLoopLegacy : List RecvEv → List SendStep → List (List Nat) → Option LoopResult
  | [], _, _ => none
  | RecvEv.err e :: rs, ss, acc =>
    if e = EINTR then forwardLoopLegacy rs ss acc
    else some ⟨PumpStop.fatal e, acc⟩
  | RecvEv.ok c :: rs, ss, acc =>
    if c.isEmpty then some ⟨PumpStop.srcEOF, acc⟩
    else
      match sendall c ss with
      | none => none
      | some (pieces, ss2, exc) =>
        match exc with
        | none => forwardLoopLegacy rs ss2 (acc ++ pieces)
        | some e =>
          if e = EPIPE then some ⟨PumpStop.destClosed, acc ++ pieces⟩
          else some ⟨PumpStop.fatal e, acc ++ pieces⟩

/-- The how argument of socket.shutdown: socket.SHUT_RD, socket.SHUT_WR or
socket.SHUT_RDWR. -/
inductive ShutHow where
  | rd
  | wr
  | rdwr
deriving DecidableEq

/-- Transcription of the helper safe_shutdown_socket(sock, how) of
src/inetpy/forward_server.py: call sock.shutdown(how) and suppress a
socket.error whose errno is ENOTCONN, re-raising every other errno.  The
behaviour of the underlying shutdown call is the function shutdown, mapping
the mode to the errno it fails with (none meaning success); the result is
the errno the helper itself raises, none meaning it returns normally. -/
def safe_shutdown_socket (shutdown : ShutHow → Option Int) (how : ShutHow) : Option Int :=
  match shutdown how with
  | none => none
  | some e => if e ≠ ENOTCONN then some e else none

/-- Semantics of a Python try/finally block whose body and finally clause
each produce a trace of events and possibly a propagating exception: the
finally clause always runs, its trace follows the body trace, and an
exception raised by the finally clause replaces the body exception. -/
def tryFinally {α : Type} (body fin : List α × Option Int) : List α × Option Int :=
  (body.1 ++ fin.1,
   match fin.2 with
   | some e => some e
   | none => body.2)

/-- One attempted shutdown call in the finally clause of the pump: the flag
is false for the source socket and true for the destination socket, paired
with the shutdown mode passed. -/
def ShutAct : Type := Bool × ShutHow

instance : DecidableEq ShutAct := by
  unfold ShutAct
  infer_instance

/-- Transcription of the finally clause of forward(src_sock, dest_sock) in
src/inetpy/forward_server.py: try safe_shutdown_socket(src_sock, SHUT_RD)
finally safe_shutdown_socket(dest_sock, SHUT_WR).  The arguments give the
errno behaviour of the two raw shutdown calls; the result is the list of
shutdown attempts in order together with the exception, if any, leaving the
clause. -/
def forwardCleanup (srcShut destShut : ShutHow → Option Int) :
    List ShutAct × Option Int :=
  tryFinally
    ([((false : Bool), ShutHow.rd)], safe_shutdown_socket srcShut ShutHow.rd)
    ([((true : Bool), ShutHow.wr)], safe_shutdown_socket destShut ShutHow.wr)

/-- The exception propagating out of the while loop for a given stop cause:
only the fatal re-raise carries one. -/
def loopExc : PumpStop → Option Int
  | PumpStop.fatal e => some e
  | _ => none

/-- Transcription of one whole run of forward(src_sock, dest_sock): the
while loop wrapped in try/finally with the two half-close shutdowns.
Returns the shutdown attempts performed, the exception leaving the call and
the loop result; none models a loop that never exits because its scripts
ran out. -/
def forwardRun (rs : List RecvEv) (ss : List SendStep)
    (srcShut destShut : ShutHow → Option Int) :
    Option (List ShutAct × Option Int × LoopResult) :=
  match forwardLoop rs ss [] with
  | none => none
  | some res =>
    let t := tryFinally (([] : List ShutAct), loopExc res.stop)
      (forwardCleanup srcShut destShut)
    some (t.1, t.2, res)

/-- Events of one run of handle of src/inetpy/forward_server.py after the
peer side has been established: spawning the background pump thread for the
client-to-peer direction, running the foreground peer-to-client pump,
joining the background thread, and the teardown shutdowns and closes of the
remote-side sockets.  closeLocal is the event of closing the accepted client
socket; handle never performs it (the client socket belongs to the
SocketServer framework). -/
inductive HEv where
  | startLocalForwarder
  | runRemoteToLocal
  | joinLocalForwarder
  | shutRemoteDest (how : ShutHow)
  | shutRemoteSrc (how : ShutHow)
  | closeRemoteDest
  | closeRemoteSrc
  | closeLocal
deriving DecidableEq

/-- Transcription of the outermost finally clause of handle: try (try
safe_shutdown_socket(remote_dest_sock, SHUT_RDWR) finally (if
remote_src_sock is not remote_dest_sock then
safe_shutdown_socket(remote_src_sock, SHUT_RDWR))) finally
(remote_dest_sock.close(); if remote_src_sock is not remote_dest_sock then
remote_src_sock.close()).  sameSock is the identity test remote_src_sock is
remote_dest_sock (true in forwarding mode, false in echo mode); shutDest and
shutSrc give the errno behaviour of the raw shutdown calls; close never
raises. -/
def handleTeardown (shutDest shutSrc : ShutHow → Option Int) (sameSock : Bool) :
    List HEv × Option Int :=
  tryFinally
    (tryFinally
      ([HEv.shutRemoteDest ShutHow.rdwr], safe_shutdown_socket shutDest ShutHow.rdwr)
      (if sameSock then ([], none)
       else ([HEv.shutRemoteSrc ShutHow.rdwr], safe_shutdown_socket shutSrc ShutHow.rdwr)))
    (HEv.closeRemoteDest :: (if sameSock then [] else [HEv.closeRemoteSrc]), none)

/-- Transcription of the relay part of handle of
src/inetpy/forward_server.py: start the background thread running
forward(local_sock, remote_dest_sock), then try
forward(remote_src_sock, local_sock) finally local_forwarder.join(), all
wrapped in try/finally with the teardown of the remote-side sockets.  fgExc
is the exception, if any, raised by the foreground forward call (the
background thread swallows its own exceptions); the result is the full event
trace of the run and the exception leaving handle. -/
def handleRelay (fgExc : Option Int) (shutDest shutSrc : ShutHow → Option Int)
    (sameSock : Bool) : List HEv × Option Int :=
  tryFinally
    (tryFinally ([HEv.startLocalForwarder, HEv.runRemoteToLocal], fgExc)
      ([HEv.joinLocalForwarder], none))
    (handleTeardown shutDest shutSrc sameSock)

/-- The Python exception classes the modelled code can raise apart from
socket.error: AttributeError (attribute lookup on an object lacking it,
including attribute access on None and on a module), NameError (an unbound
plain name), TypeError (calling a non-callable such as a module) and
AssertionError (a failed assert statement). -/
inductive PyExc where
  | attributeError
  | nameError
  | typeError
  | assertionError
deriving DecidableEq

/-- State of a ForwardServer object relevant to start and stop: the field
subproc of src/inetpy/forward_server.py holds the pid of the owned
multiprocessing.Process when the server is running and None otherwise. -/
structure FwdServerState where
  subproc : Option Nat
deriving DecidableEq

/-- Transcription of the property running of ForwardServer: true when
subproc is not None. -/
def running (s : FwdServerState) : Bool :=
  s.subproc.isSome

/-- One observable action stop performs on the owned subprocess. -/
inductive ProcAct where
  | terminate (pid : Nat)
  | join (pid : Nat) (timeout : Nat)
deriving DecidableEq

/-- Transcription of ForwardServer.stop of src/inetpy/forward_server.py:
self.subproc.terminate(); self.subproc.join(timeout=10);
self.subproc = None.  When subproc is already None, the attribute access
None.terminate() raises AttributeError before anything else happens; when a
subprocess is owned, terminate and join(10) are issued in order and subproc
is reset to None.  Returns the successor state and the actions performed, or
the raised exception. -/
def stop (s : FwdServerState) : Except PyExc (FwdServerState × List ProcAct) :=
  match s.subproc with
  | none => Except.error PyExc.attributeError
  | some pid =>
    Except.ok (⟨none⟩, [ProcAct.terminate pid, ProcAct.join pid 10])

/-- Address families selectable for the socket pair. -/
inductive AddrFamily where
  | afUnix
  | afInet
deriving DecidableEq

/-- What socket_pair returns on its successful path: the connected native
pair from socket.socketpair for the resolved family. -/
inductive PairOutcome where
  | nativePair (family : AddrFamily)
deriving DecidableEq

/-- Transcription of socket_pair of src/inetpy/socket_pair.py.  The module
is imported via import socket, so the names socket.AF_UNIX and
socket.socketpair are attribute lookups on the module: on a platform lacking
them the lookup raises AttributeError, not NameError.  hasAFUnix and
hasSocketpair state whether the running platform provides those two module
attributes; familyArg is the family parameter (None selects the default
resolution).  Control flow transcribed: try family = socket.AF_UNIX except
NameError: family = socket.AF_INET; then try socket.socketpair(family,
sock_type, proto) except NameError: fallback.  Both except clauses catch
only NameError, so a missing module attribute (AttributeError) propagates
and the fallback block is never entered. -/
def socket_pair (hasAFUnix hasSocketpair : Bool) (familyArg : Option AddrFamily) :
    Except PyExc PairOutcome :=
  match (match familyArg with
         | some f => Except.ok f
         | none =>
           if hasAFUnix then Except.ok AddrFamily.afUnix
           else (Except.error PyExc.attributeError : Except PyExc AddrFamily)) with
  | Except.error e => Except.error e
  | Except.ok family =>
    if hasSocketpair then Except.ok (PairOutcome.nativePair family)
    else Except.error PyExc.attributeError

/-- Transcription of the first statement of the fallback block of
socket_pair (the block meant to work around a missing socket.socketpair):
listener = socket(family, sock_type, proto).  In this module the plain name
socket is bound to the socket module itself (import socket), not to the
class socket.socket, and calling a module object raises TypeError, so the
fallback block fails on its first statement and its listener, connect and
accept logic is unreachable. -/
def socketPairFallbackFirstStmt (_family : AddrFamily) : Except PyExc Nat :=
  Except.error PyExc.typeError

/-- Python socket-type constant socket.SOCK_STREAM. -/
def SOCK_STREAM : Nat := 1

/-- Python socket-type constant socket.SOCK_DGRAM. -/
def SOCK_DGRAM : Nat := 2

/-- A constructed ForwardServer object, over an address representation α:
the fields set by the constructor of src/inetpy/forward_server.py. -/
structure ForwardServerObj (α : Type) where
  remote_addr : Option α
  remote_addr_family : Nat
  remote_socket_type : Nat
  server_addr : α
  server_addr_family : Nat
  server_socket_type : Nat
  subproc : Option Nat

/-- Transcription of the constructor of ForwardServer
(src/inetpy/forward_server.py lines 61 to 100): it asserts, in order, that
remote_socket_type equals socket.SOCK_STREAM, that server_addr is not None,
that server_addr_family is not None and that server_socket_type equals
socket.SOCK_STREAM; on success it stores the arguments and sets subproc to
None.  A failed assert statement raises AssertionError and no object is
produced. -/
def forwardServerInit {α : Type} (remote_addr : Option α)
    (remote_addr_family : Nat) (remote_socket_type : Nat)
    (server_addr : Option α) (server_addr_family : Option Nat)
    (server_socket_type : Nat) : Except PyExc (ForwardServerObj α) :=
  if remote_socket_type ≠ SOCK_STREAM then Except.error PyExc.assertionError
  else
    match server_addr with
    | none => Except.error PyExc.assertionError
    | some sa =>
      match server_addr_family with
      | none => Except.error PyExc.assertionError
      | some saf =>
        if server_socket_type ≠ SOCK_STREAM then Except.error PyExc.assertionError
        else Except.ok ⟨remote_addr, remote_addr_family, remote_socket_type,
                        sa, saf, server_socket_type, none⟩

/-- Companion definition written from the words of the specification of the
Half-Duplex Pump, for the refinement comparison with forwardLoop: the bytes
the pump forwards are exactly the nonempty chunks read from the source, in
order, concatenated, up to the first terminating read (a zero-length read,
or any failure other than a transparently retried interrupt). -/
def specForwardBytes : List RecvEv → List Nat
  | [] => []
  | RecvEv.err e :: rs => if e = EINTR then specForwardBytes rs else []
  | RecvEv.ok c :: rs => if c.isEmpty then [] else c ++ specForwardBytes rs

/-- The recv_into script a pump sees when its source delivers the chunks cs
and then reports EOF (the peer half-closed its write side after sending
everything). -/
def recvScriptOf (cs : List (List Nat)) : List RecvEv :=
  cs.map RecvEv.ok ++ [RecvEv.ok []]

/-- cs is a possible in-order kernel chunking of the byte sequence B as seen
through recv_into with the 16 KiB receive buffer: the chunks concatenate to
B, and each is nonempty (a zero-length read means EOF) and at most the
buffer size. -/
def ChunkingOf (B : List Nat) (cs : List (List Nat)) : Prop :=
  cs.flatten = B ∧ ∀ c ∈ cs, c ≠ [] ∧ c.length ≤ SOCK_RX_BUF_SIZE

instance : ∀ B cs, Decidable (ChunkingOf B cs) := by
  intro B cs
  unfold ChunkingOf
  infer_instance

/-- True for the events of the final teardown of the remote-side sockets in
handle: their shutdowns and closes. -/
def isTeardownEv : HEv → Bool
  | HEv.shutRemoteDest _ => true
  | HEv.shutRemoteSrc _ => true
  | HEv.closeRemoteDest => true
  | HEv.closeRemoteSrc => true
  | _ => false

/-- True when this recv event, if it carries a chunk, carries one of at most
N bytes; recv_into with an N-byte buffer only ever produces such events. -/
def RecvEv.chunkLe (N : Nat) : RecvEv → Bool
  | RecvEv.ok c => c.length ≤ N
  | RecvEv.err _ => true

/-- On an error-free send script, sendall raises nothing, hands the kernel
exactly the bytes it was given, and leaves the rest of the script
error-free. -/
theorem sendall_ok (data : List Nat) (ss : List SendStep)
    (pieces : List (List Nat)) (ss2 : List SendStep) (exc : Option Int)
    (h : sendall data ss = some (pieces, ss2, exc))
    (hok : ss.all (fun s => !s.isErr) = true) :
    exc = none ∧ pieces.flatten = data ∧ ss2.all (fun s => !s.isErr) = true := by
  induction data, ss using sendall.induct generalizing pieces ss2 exc with
  | case1 script =>
    simp [sendall] at h
    obtain ⟨h1, h2, h3⟩ := h
    subst h1; subst h2; subst h3
    simpa using hok
  | case2 d ds =>
    simp [sendall] at h
  | case3 d ds e rest =>
    simp [SendStep.isErr] at hok
  | case4 d ds n rest hrec ih =>
    rw [sendall, hrec] at h
    simp at h
  | case5 d ds n rest ps rest2 exc2 hrec ih =>
    rw [sendall, hrec] at h
    simp at h
    obtain ⟨h1, h2, h3⟩ := h
    subst h1; subst h2; subst h3
    simp at hok
    obtain ⟨hhd, htl⟩ := hok
    obtain ⟨e1, e2, e3⟩ := ih ps rest2 exc2 hrec (by simpa using htl)
    refine ⟨e1, ?_, e3⟩
    simp [e2]

/-- Every piece sendall hands to the kernel is no longer than the data it
was asked to send. -/
theorem sendall_piece_le (data : List Nat) (ss : List SendStep)
    (pieces : List (List Nat)) (ss2 : List SendStep) (exc : Option Int)
    (h : sendall data ss = some (pieces, ss2, exc)) :
    ∀ p ∈ pieces, p.length ≤ data.length := by
  induction data, ss using sendall.induct generalizing pieces ss2 exc with
  | case1 script =>
    simp [sendall] at h
    obtain ⟨h1, h2, h3⟩ := h
    subst h1
    simp
  | case2 d ds =>
    simp [sendall] at h
  | case3 d ds e rest =>
    simp [sendall] at h
    obtain ⟨h1, h2, h3⟩ := h
    subst h1
    simp
  | case4 d ds n rest hrec ih =>
    rw [sendall, hrec] at h
    simp at h
  | case5 d ds n rest ps rest2 exc2 hrec ih =>
    rw [sendall, hrec] at h
    simp at h
    obtain ⟨h1, h2, h3⟩ := h
    subst h1
    intro p hp
    simp at hp
    rcases hp with hp | hp
    · subst hp
      simp
    · calc p.length ≤ ((d :: ds).drop ((n + 1) ⊓ (d :: ds).length)).length :=
            ih ps rest2 exc2 hrec p hp
        _ ≤ (d :: ds).length := by simp

/-- On an error-free send script, whenever the forward loop exits, the bytes
it has written are the accumulator plus exactly the nonempty chunks read, in
order, as given by the spec-side function specForwardBytes. -/
theorem forwardLoop_written (rs : List RecvEv) (ss : List SendStep)
    (acc : List (List Nat)) (res : LoopResult)
    (h : forwardLoop rs ss acc = some res)
    (hok : ss.all (fun s => !s.isErr) = true) :
    res.written.flatten = acc.flatten ++ specForwardBytes rs := by
  induction rs, ss, acc using forwardLoop.induct generalizing res with
  | case1 ss acc => simp [forwardLoop] at h
  | case2 rs ss acc ih =>
    simp [forwardLoop] at h
    simp [specForwardBytes]
    exact ih res h hok
  | case3 rs ss acc hne =>
    simp [forwardLoop, hne] at h
    subst h
    simp [specForwardBytes, hne]
  | case4 e rs ss acc hne1 hne2 =>
    simp [forwardLoop, hne1, hne2] at h
    subst h
    simp [specForwardBytes, hne1]
  | case5 c rs ss acc hc =>
    simp [forwardLoop, hc] at h
    subst h
    simp [specForwardBytes, hc]
  | case6 c rs ss acc hc hsend =>
    simp [forwardLoop, hc, hsend] at h
  | case7 c rs ss acc hc pieces rest2 hsend ih =>
    obtain ⟨-, hflat, hok2⟩ := sendall_ok c ss pieces rest2 none hsend hok
    simp [forwardLoop, hc, hsend] at h
    have := ih res h hok2
    simp [specForwardBytes, hc, this, hflat]
  | case8 c rs ss acc hc pieces rest2 hsend =>
    obtain ⟨hcontra, -, -⟩ := sendall_ok c ss pieces rest2 (some EPIPE) hsend hok
    simp at hcontra
  | case9 c rs ss acc hc pieces rest2 hne hsend =>
    obtain ⟨hcontra, -, -⟩ := sendall_ok c ss pieces rest2 (some ECONNRESET) hsend hok
    simp at hcontra
  | case10 c rs ss acc hc pieces rest2 e hne1 hne2 hsend =>
    obtain ⟨hcontra, -, -⟩ := sendall_ok c ss pieces rest2 (some e) hsend hok
    simp at hcontra

/-- Whenever the forward loop exits, every piece it wrote is bounded by the
bound N holding for the accumulated pieces and for every chunk the recv
script can deliver. -/
theorem forwardLoop_piece_le (rs : List RecvEv) (ss : List SendStep)
    (acc : List (List Nat)) (res : LoopResult) (N : Nat)
    (h : forwardLoop rs ss acc = some res)
    (hacc : ∀ p ∈ acc, p.length ≤ N)
    (hrs : ∀ c, RecvEv.ok c ∈ rs → c.length ≤ N) :
    ∀ p ∈ res.written, p.length ≤ N := by
  induction rs, ss, acc using forwardLoop.induct generalizing res with
  | case1 ss acc => simp [forwardLoop] at h
  | case2 rs ss acc ih =>
    simp [forwardLoop] at h
    exact ih res h hacc (fun c hc => hrs c (by simp [hc]))
  | case3 rs ss acc hne =>
    simp [forwardLoop, hne] at h
    subst h
    exact hacc
  | case4 e rs ss acc hne1 hne2 =>
    simp [forwardLoop, hne1, hne2] at h
    subst h
    exact hacc
  | case5 c rs ss acc hc =>
    simp [forwardLoop, hc] at h
    subst h
    exact hacc
  | case6 c rs ss acc hc hsend =>
    simp [forwardLoop, hc, hsend] at h
  | case7 c rs ss acc hc pieces rest2 hsend ih =>
    simp [forwardLoop, hc, hsend] at h
    refine ih res h ?_ (fun c2 hc2 => hrs c2 (by simp [hc2]))
    intro p hp
    rcases List.mem_append.mp hp with hp | hp
    · exact hacc p hp
    · calc p.length ≤ c.length := sendall_piece_le c ss pieces rest2 none hsend p hp
        _ ≤ N := hrs c (by simp)
  | case8 c rs ss acc hc pieces rest2 hsend =>
    simp [forwardLoop, hc, hsend] at h
    subst h
    intro p hp
    rcases List.mem_append.mp hp with hp | hp
    · exact hacc p hp
    · calc p.length ≤ c.length :=
          sendall_piece_le c ss pieces rest2 (some EPIPE) hsend p hp
        _ ≤ N := hrs c (by simp)
  | case9 c rs ss acc hc pieces rest2 hne hsend =>
    simp [forwardLoop, hc, hne, hsend] at h
    subst h
    intro p hp
    rcases List.mem_append.mp hp with hp | hp
    · exact hacc p hp
    · calc p.length ≤ c.length :=
          sendall_piece_le c ss pieces rest2 (some ECONNRESET) hsend p hp
        _ ≤ N := hrs c (by simp)
  | case10 c rs ss acc hc pieces rest2 e hne1 hne2 hsend =>
    simp [forwardLoop, hc, hne1, hne2, hsend] at h
    subst h
    intro p hp
    rcases List.mem_append.mp hp with hp | hp
    · exact hacc p hp
    · calc p.length ≤ c.length :=
          sendall_piece_le c ss pieces rest2 (some e) hsend p hp
        _ ≤ N := hrs c (by simp)

/-- On the recv script of nonempty chunks followed by EOF, the spec-side
forwarded bytes are exactly the concatenation of the chunks. -/
theorem specForwardBytes_recvScript (cs : List (List Nat))
    (hcs : ∀ c ∈ cs, c ≠ []) :
    specForwardBytes (recvScriptOf cs) = cs.flatten := by
  induction cs with
  | nil => simp [recvScriptOf, specForwardBytes]
  | cons c cs ih =>
    have hc : ¬c.isEmpty = true := by
      simp [List.isEmpty_iff]
      exact hcs c (by simp)
    simp [recvScriptOf, specForwardBytes, hc] at ih ⊢
    exact ih (fun c2 hc2 => hcs c2 (by simp [hc2]))

/-- On an error-free send script, a pump whose source delivers chunks and
then EOF stops with the orderly source-EOF outcome. -/
theorem forwardLoop_eof_stop (cs : List (List Nat)) (ss : List SendStep)
    (acc : List (List Nat)) (res : LoopResult)
    (h : forwardLoop (recvScriptOf cs) ss acc = some res)
    (hok : ss.all (fun s => !s.isErr) = true)
    (hcs : ∀ c ∈ cs, c ≠ []) :
    res.stop = PumpStop.srcEOF := by
  induction cs generalizing ss acc res with
  | nil =>
    simp [recvScriptOf, forwardLoop] at h
    subst h
    rfl
  | cons c cs ih =>
    have hc : ¬c.isEmpty = true := by
      simp [List.isEmpty_iff]
      exact hcs c (by simp)
    rw [recvScriptOf] at h
    simp only [List.map_cons, List.cons_append] at h
    cases hsend : sendall c ss with
    | none => simp [forwardLoop, hc, hsend] at h
    | some v =>
      obtain ⟨pieces, rest2, exc⟩ := v
      obtain ⟨hexc, -, hok2⟩ := sendall_ok c ss pieces rest2 exc hsend hok
      subst hexc
      simp [forwardLoop, hc, hsend] at h
      exact ih rest2 (acc ++ pieces) res h hok2 (fun c2 hc2 => hcs c2 (by simp [hc2]))

/-- Inversion of one whole pump run: the loop exited with the recorded
result, and the cleanup attempted exactly the source read-half shutdown
followed by the destination write-half shutdown. -/
theorem forwardRun_inv (rs : List RecvEv) (ss : List SendStep)
    (srcShut destShut : ShutHow → Option Int) (acts : List ShutAct)
    (exc : Option Int) (res : LoopResult)
    (h : forwardRun rs ss srcShut destShut = some (acts, exc, res)) :
    forwardLoop rs ss [] = some res ∧
    acts = [((false : Bool), ShutHow.rd), ((true : Bool), ShutHow.wr)] := by
  unfold forwardRun at h
  cases hl : forwardLoop rs ss [] with
  | none =>
    rw [hl] at h
    exact absurd h (by simp)
  | some r =>
    rw [hl] at h
    simp [tryFinally, forwardCleanup] at h
    obtain ⟨ha, hx, hr⟩ := h
    subst hr
    exact ⟨rfl, ha.symm⟩

/-- C4: on every exit path of one pump run (normal EOF, peer-closed stop, or
fatal error), the pump performs, in order, the shutdown of the read half of
the source and then the shutdown of the write half of the destination; the
second is attempted even when the first raises (the shutdown behaviour
functions are arbitrary, including ones making the first safe shutdown
re-raise). -/
theorem pump_cleanup_order (rs : List RecvEv) (ss : List SendStep)
    (srcShut destShut : ShutHow → Option Int) (acts : List ShutAct)
    (exc : Option Int) (res : LoopResult)
    (h : forwardRun rs ss srcShut destShut = some (acts, exc, res)) :
    acts = [((false : Bool), ShutHow.rd), ((true : Bool), ShutHow.wr)] :=
  (forwardRun_inv rs ss srcShut destShut acts exc res h).2

/-- Witness for pump_cleanup_order: a concrete run whose source shutdown
raises errno 99 (not ENOTCONN, so the safe shutdown re-raises it), on which
the destination write-half shutdown is still attempted after the source
read-half shutdown. -/
theorem pump_cleanup_order_witness :
    [((false : Bool), ShutHow.rd), ((true : Bool), ShutHow.wr)] =
      [((false : Bool), ShutHow.rd), ((true : Bool), ShutHow.wr)] :=
  pump_cleanup_order [RecvEv.ok []] [] (fun _ => some 99) (fun _ => none)
    [((false : Bool), ShutHow.rd), ((true : Bool), ShutHow.wr)] (some 99)
    ⟨PumpStop.srcEOF, []⟩ (by decide)

/-- C9: the safe shutdown helper suppresses the not-connected failure: for
every shutdown mode, when the underlying shutdown call fails with ENOTCONN,
safe_shutdown_socket returns normally instead of raising. -/
theorem safe_shutdown_suppresses_enotconn (shutdown : ShutHow → Option Int)
    (how : ShutHow) (h : shutdown how = some ENOTCONN) :
    safe_shutdown_socket shutdown how = none := by
  unfold safe_shutdown_socket
  rw [h]
  simp

/-- Witness for safe_shutdown_suppresses_enotconn at a concrete
already-disconnected socket and the SHUT_RDWR mode. -/
theorem safe_shutdown_suppresses_enotconn_witness :
    safe_shutdown_socket (fun _ => some ENOTCONN) ShutHow.rdwr = none :=
  safe_shutdown_suppresses_enotconn (fun _ => some ENOTCONN) ShutHow.rdwr rfl

/-- C10: the constructor rejects unsupported configurations: whenever the
remote or server socket type differs from SOCK_STREAM, or the server address
or server address family is None, an assert fails and no server object is
produced. -/
theorem init_rejects_unsupported {α : Type} (remote_addr : Option α)
    (raf rst : Nat) (server_addr : Option α) (saf : Option Nat) (sst : Nat)
    (h : rst ≠ SOCK_STREAM ∨ sst ≠ SOCK_STREAM ∨ server_addr = none ∨ saf = none) :
    forwardServerInit remote_addr raf rst server_addr saf sst =
      Except.error PyExc.assertionError := by
  unfold forwardServerInit
  by_cases hr : rst = SOCK_STREAM
  · simp only [hr, ne_eq, not_true_eq_false, if_false]
    cases server_addr with
    | none => rfl
    | some sa =>
      cases saf with
      | none => rfl
      | some v =>
        rcases h with h | h | h | h
        · exact absurd hr h
        · simp [h]
        · exact absurd h (by simp)
        · exact absurd h (by simp)
  · simp [hr]

/-- Witness for init_rejects_unsupported: constructing with a SOCK_DGRAM
remote socket type fails the assertion. -/
theorem init_rejects_unsupported_witness :
    forwardServerInit (none : Option Nat) 2 SOCK_DGRAM (some 0) (some 2)
      SOCK_STREAM = Except.error PyExc.assertionError :=
  init_rejects_unsupported (none : Option Nat) 2 SOCK_DGRAM (some 0) (some 2)
    SOCK_STREAM (Or.inl (by decide))

/-- Counterexample to C7 as stated: after a first successful stop the field
subproc is None, and the second stop call raises AttributeError
(None.terminate()), so stop is not idempotent. -/
theorem stop_second_call_raises_cex :
    stop ⟨some 1⟩ =
      Except.ok (⟨none⟩, [ProcAct.terminate 1, ProcAct.join 1 10]) ∧
    stop ⟨none⟩ = Except.error PyExc.attributeError :=
  ⟨rfl, rfl⟩

/-- C7 amended: a stop call on a running server succeeds, terminates the
owned subprocess, joins it with timeout 10 and leaves the server not
running; but stop is not idempotent: a stop call on an already stopped
server (subproc None) raises AttributeError. -/
theorem stop_behavior (pid : Nat) :
    stop ⟨some pid⟩ =
      Except.ok (⟨none⟩, [ProcAct.terminate pid, ProcAct.join pid 10]) ∧
    running ⟨none⟩ = false ∧
    stop ⟨none⟩ = Except.error PyExc.attributeError :=
  ⟨rfl, rfl, rfl⟩

/-- C8: the socket_pair fallback for platforms lacking socket.socketpair is
unreachable and broken: a missing module attribute raises AttributeError,
which the except NameError clause does not catch, so the call fails both
with an explicit family argument and with the default family resolution on a
platform lacking AF_UNIX; and even the first statement of the fallback block
raises TypeError because it calls the socket module itself.  The native path
(socket.socketpair available) is the only one that succeeds. -/
theorem socket_pair_fallback_unreachable (hasAFUnix : Bool) (f : AddrFamily) :
    socket_pair hasAFUnix false (some f) = Except.error PyExc.attributeError ∧
    socket_pair false false none = Except.error PyExc.attributeError ∧
    socketPairFallbackFirstStmt f = Except.error PyExc.typeError ∧
    socket_pair hasAFUnix true (some f) = Except.ok (PairOutcome.nativePair f) :=
  ⟨rfl, rfl, rfl, rfl⟩

/-- Counterexample to C5 as stated: in the legacy pump of
src/forward_server.py (one of the cited sources), a read failing with
ECONNRESET re-raises instead of stopping as SourceClosed, and a write
failing with ECONNRESET re-raises instead of stopping as DestinationClosed:
the exception propagates out of the pump. -/
theorem legacy_pump_reset_raises_cex :
    forwardLoopLegacy [RecvEv.err ECONNRESET] [] [] =
      some ⟨PumpStop.fatal ECONNRESET, []⟩ ∧
    forwardLoopLegacy [RecvEv.ok [1]] [SendStep.err ECONNRESET] [] =
      some ⟨PumpStop.fatal ECONNRESET, []⟩ := by
  decide

/-- C5 amended: in the pump of src/inetpy/forward_server.py, a read failing
with ECONNRESET stops the loop as the orderly source-reset outcome and a
write failing with EPIPE or ECONNRESET stops it as the orderly
destination-closed outcome, with no exception; the legacy pump of
src/forward_server.py instead propagates ECONNRESET from both reads
(handling only EINTR) and writes (handling only EPIPE) as an exception. -/
theorem pump_peer_closed_outcomes (rs : List RecvEv) (ss ss2 : List SendStep)
    (c : List Nat) (acc : List (List Nat)) (hc : c ≠ []) :
    forwardLoop (RecvEv.err ECONNRESET :: rs) ss acc =
      some ⟨PumpStop.srcReset, acc⟩ ∧
    forwardLoop (RecvEv.ok c :: rs) (SendStep.err EPIPE :: ss2) acc =
      some ⟨PumpStop.destClosed, acc⟩ ∧
    forwardLoop (RecvEv.ok c :: rs) (SendStep.err ECONNRESET :: ss2) acc =
      some ⟨PumpStop.destClosed, acc⟩ ∧
    forwardLoopLegacy (RecvEv.err ECONNRESET :: rs) ss acc =
      some ⟨PumpStop.fatal ECONNRESET, acc⟩ ∧
    forwardLoopLegacy (RecvEv.ok c :: rs) (SendStep.err ECONNRESET :: ss2) acc =
      some ⟨PumpStop.fatal ECONNRESET, acc⟩ := by
  obtain ⟨d, ds, rfl⟩ : ∃ d ds, c = d :: ds := by
    cases c with
    | nil => exact absurd rfl hc
    | cons d ds => exact ⟨d, ds, rfl⟩
  refine ⟨?_, ?_, ?_, ?_, ?_⟩ <;>
    simp [forwardLoop, forwardLoopLegacy, sendall, EINTR, ECONNRESET, EPIPE]

/-- Witness for pump_peer_closed_outcomes at a concrete nonempty chunk and
empty continuation scripts. -/
theorem pump_peer_closed_outcomes_witness :
    forwardLoop [RecvEv.err ECONNRESET] [] [] =
      some ⟨PumpStop.srcReset, []⟩ ∧
    forwardLoop [RecvEv.ok [7]] [SendStep.err EPIPE] [] =
      some ⟨PumpStop.destClosed, []⟩ ∧
    forwardLoop [RecvEv.ok [7]] [SendStep.err ECONNRESET] [] =
      some ⟨PumpStop.destClosed, []⟩ ∧
    forwardLoopLegacy [RecvEv.err ECONNRESET] [] [] =
      some ⟨PumpStop.fatal ECONNRESET, []⟩ ∧
    forwardLoopLegacy [RecvEv.ok [7]] [SendStep.err ECONNRESET] [] =
      some ⟨PumpStop.fatal ECONNRESET, []⟩ :=
  pump_peer_closed_outcomes [] [] [] [7] [] (by decide)

/-- C3: the duplex relay joins the background pump thread before any part of
the final teardown of the remote-side sockets, on every exit path of the
foreground pump (fgExc ranges over no exception and every fatal errno) and
for every shutdown behaviour and both socket identity cases: the event trace
of handle splits as a teardown-free prefix, then the join of the pump
thread, then the teardown; handle returns only after the whole trace,
including the join, has run. -/
theorem relay_joins_before_teardown (fgExc : Option Int)
    (shutDest shutSrc : ShutHow → Option Int) (sameSock : Bool) :
    ∃ pre post,
      (handleRelay fgExc shutDest shutSrc sameSock).1 =
        pre ++ HEv.joinLocalForwarder :: post ∧
      pre.all (fun ev => !isTeardownEv ev) = true ∧
      post = (handleTeardown shutDest shutSrc sameSock).1 := by
  refine ⟨[HEv.startLocalForwarder, HEv.runRemoteToLocal],
    (handleTeardown shutDest shutSrc sameSock).1, ?_, by decide, rfl⟩
  simp [handleRelay, tryFinally]

/-- C6: after the relay, handle shuts down (SHUT_RDWR) and closes the
remote-side destination socket exactly once and, when the source and
destination roles are distinct sockets (echo mode), shuts down and closes
the source-role socket exactly once as well; when they are the same socket
(forwarding mode) the guarded second shutdown and close are skipped, so the
single socket is not closed twice; and the accepted client socket is never
closed by handle on any path. -/
theorem teardown_closes_remote_not_local (fgExc : Option Int)
    (shutDest shutSrc : ShutHow → Option Int) (sameSock : Bool) :
    ((handleRelay fgExc shutDest shutSrc sameSock).1.count
        (HEv.shutRemoteDest ShutHow.rdwr) = 1) ∧
    ((handleRelay fgExc shutDest shutSrc sameSock).1.count
        HEv.closeRemoteDest = 1) ∧
    ((handleRelay fgExc shutDest shutSrc sameSock).1.count
        (HEv.shutRemoteSrc ShutHow.rdwr) = if sameSock then 0 else 1) ∧
    ((handleRelay fgExc shutDest shutSrc sameSock).1.count
        HEv.closeRemoteSrc = if sameSock then 0 else 1) ∧
    ((handleRelay fgExc shutDest shutSrc sameSock).1.count
        HEv.closeLocal = 0) := by
  cases sameSock <;>
    simp [handleRelay, handleTeardown, tryFinally, List.count_cons]

/-- C2: the half-duplex pump reads chunks of at most 16 KiB (each recv_into
result bounded by the buffer size) and, as long as every write attempt the
kernel sees is error-free, the bytes it writes are exactly the nonempty
chunks read, in order, exactly once, fully flushed piece by piece (partial
kernel accepts retried inside sendall) before the next read, as stated by
the spec-side function specForwardBytes; and no written piece exceeds the
16 KiB buffer size. -/
theorem pump_forwards_exactly (rs : List RecvEv) (ss : List SendStep)
    (res : LoopResult)
    (h : forwardLoop rs ss [] = some res)
    (hok : ss.all (fun s => !s.isErr) = true)
    (hsz : rs.all (RecvEv.chunkLe SOCK_RX_BUF_SIZE) = true) :
    res.written.flatten = specForwardBytes rs ∧
    ∀ p ∈ res.written, p.length ≤ SOCK_RX_BUF_SIZE := by
  constructor
  · simpa using forwardLoop_written rs ss [] res h hok
  · refine forwardLoop_piece_le rs ss [] res SOCK_RX_BUF_SIZE h (by simp) ?_
    intro c hc
    have := List.all_eq_true.mp hsz _ hc
    simpa [RecvEv.chunkLe] using this

/-- Witness for pump_forwards_exactly: three reads delivered as one-byte
kernel accepts (partial writes retried), then EOF. -/
theorem pump_forwards_exactly_witness :
    ([[1], [2], [3]] : List (List Nat)).flatten =
      specForwardBytes [RecvEv.ok [1, 2], RecvEv.ok [3], RecvEv.ok []] ∧
    ∀ p ∈ ([[1], [2], [3]] : List (List Nat)), p.length ≤ SOCK_RX_BUF_SIZE :=
  pump_forwards_exactly [RecvEv.ok [1, 2], RecvEv.ok [3], RecvEv.ok []]
    [SendStep.accept 0, SendStep.accept 0, SendStep.accept 0]
    ⟨PumpStop.srcEOF, [[1], [2], [3]]⟩ (by decide) (by decide) (by decide)

/-- C1: echo round-trip.  The client sends the byte sequence B and
half-closes its write side, so the client-to-peer pump sees some kernel
chunking cs1 of B followed by EOF; it forwards the bytes into one end of the
loopback pair, which delivers exactly those bytes to the other end as some
kernel chunking cs2, again followed by EOF (the pump propagated the
half-close by shutting down its destination write half).  Then the
peer-to-client pump writes back to the client exactly B, both pumps stop
with the orderly source-EOF outcome, and the returning pump finishes by
shutting down the write half of its destination, the client socket, so the
client then observes EOF (an empty read). -/
theorem echo_roundtrip (B : List Nat) (cs1 cs2 : List (List Nat))
    (ss1 ss2 : List SendStep)
    (sh1src sh1dst sh2src sh2dst : ShutHow → Option Int)
    (acts1 acts2 : List ShutAct) (exc1 exc2 : Option Int) (r1 r2 : LoopResult)
    (hB : ChunkingOf B cs1)
    (hok1 : ss1.all (fun s => !s.isErr) = true)
    (h1 : forwardRun (recvScriptOf cs1) ss1 sh1src sh1dst = some (acts1, exc1, r1))
    (hC : ChunkingOf r1.written.flatten cs2)
    (hok2 : ss2.all (fun s => !s.isErr) = true)
    (h2 : forwardRun (recvScriptOf cs2) ss2 sh2src sh2dst = some (acts2, exc2, r2)) :
    r2.written.flatten = B ∧ r1.stop = PumpStop.srcEOF ∧
    r2.stop = PumpStop.srcEOF ∧ ((true : Bool), ShutHow.wr) ∈ acts2 := by
  obtain ⟨hl1, ha1⟩ := forwardRun_inv _ _ _ _ _ _ _ h1
  obtain ⟨hl2, ha2⟩ := forwardRun_inv _ _ _ _ _ _ _ h2
  have hcs1 : ∀ c ∈ cs1, c ≠ [] := fun c hc => (hB.2 c hc).1
  have hcs2 : ∀ c ∈ cs2, c ≠ [] := fun c hc => (hC.2 c hc).1
  have hw1 : r1.written.flatten = B := by
    have := forwardLoop_written _ _ _ _ hl1 hok1
    rw [specForwardBytes_recvScript cs1 hcs1] at this
    simpa [hB.1] using this
  have hw2 : r2.written.flatten = B := by
    have := forwardLoop_written _ _ _ _ hl2 hok2
    rw [specForwardBytes_recvScript cs2 hcs2] at this
    simp at this
    rw [this, hC.1, hw1]
  refine ⟨hw2, ?_, ?_, ?_⟩
  · exact forwardLoop_eof_stop cs1 ss1 [] r1 hl1 hok1 hcs1
  · exact forwardLoop_eof_stop cs2 ss2 [] r2 hl2 hok2 hcs2
  · rw [ha2]
    simp

/-- Witness for echo_roundtrip: the client sends the four bytes 10 20 30 40,
delivered to the first pump as two chunks and re-chunked differently on the
loopback leg; the client receives exactly those bytes back and the returning
pump half-closes the client write direction. -/
theorem echo_roundtrip_witness :
    ([[10], [20, 30, 40]] : List (List Nat)).flatten = [10, 20, 30, 40] ∧
    (⟨PumpStop.srcEOF, [[10, 20], [30, 40]]⟩ : LoopResult).stop =
      PumpStop.srcEOF ∧
    (⟨PumpStop.srcEOF, [[10], [20, 30, 40]]⟩ : LoopResult).stop =
      PumpStop.srcEOF ∧
    ((true : Bool), ShutHow.wr) ∈
      [((false : Bool), ShutHow.rd), ((true : Bool), ShutHow.wr)] :=
  echo_roundtrip [10, 20, 30, 40] [[10, 20], [30, 40]] [[10], [20, 30, 40]]
    [SendStep.accept 16383, SendStep.accept 16383]
    [SendStep.accept 16383, SendStep.accept 16383]
    (fun _ => none) (fun _ => none) (fun _ => none) (fun _ => none)
    [((false : Bool), ShutHow.rd), ((true : Bool), ShutHow.wr)]
    [((false : Bool), ShutHow.rd), ((true : Bool), ShutHow.wr)]
    none none
    ⟨PumpStop.srcEOF, [[10, 20], [30, 40]]⟩
    ⟨PumpStop.srcEOF, [[10], [20, 30, 40]]⟩
    (by decide) (by decide) (by decide) (by decide) (by decide) (by decide)

end Inetpy
